import Mathlib

/-!
# Verification of `converter.py` (video-to-ascii)

Shallow embedding of `src/converter/src/converter.py` and proofs of the
specification's claims about it.

Conventions of the embedding:
* Pixel intensities are `Nat` in `[0, 255]`; images are row-major pixel lists.
* Python float arithmetic on small rationals (`1000 / fps`, `aspect_ratio *
  new_width * 0.5`, `total_seconds()`) is modelled by exact rational / integer
  arithmetic with explicit floors; `int()` on a nonnegative value is the floor.
* Fallible steps (source open failure, division by zero, sink failures, the
  `ValueError` Pillow's `Image.resize` raises on a zero target dimension) are
  explicit outcome values instead of Python exceptions.
* The colour-space conversion (BGR → RGB → `'L'`) is an external library
  call; frames are modelled as already-grayscale images.  The resampling
  filter is modelled as nearest-neighbour sampling: no claim depends on the
  individual resampled pixel values, only on the output dimensions, on the
  value range `[0, 255]`, and on the error behaviour at degenerate
  dimensions, all of which are modelled faithfully.
-/

set_option autoImplicit false

namespace Converter

/-- A grayscale image: `width × height` pixels, row-major. -/
structure Img where
  width : Nat
  height : Nat
  pixels : List Nat
  deriving Repr, DecidableEq

/-- `ASCII_CHARS = "$#H&@*+=-:.  "` — the fixed glyph ramp, dark to light. -/
def ASCII_CHARS : String := "$#H&@*+=-:.  "

/-- The ramp as a character list (Python string indexing). -/
def asciiChars : List Char := ASCII_CHARS.data

/-- Left-pad the decimal rendering of `n` with zeros to width `w`,
like Python's `f"{n:0wd}"` (numbers with more digits print in full). -/
def padZeros (w : Nat) (n : Nat) : String :=
  let s := toString n
  String.mk (List.replicate (w - s.length) '0') ++ s

/-- `format_timestamp(milliseconds)`: renders `HH:MM:SS,mmm`.
The Python code goes through `timedelta` and `total_seconds()`; in exact
arithmetic `hours = int(total_seconds() // 3600) = ms / 3600000`,
`minutes = int((total_seconds() % 3600) // 60) = ms % 3600000 / 60000`,
`seconds = int(total_seconds() % 60) = ms % 60000 / 1000`, and
`millis = int(t.microseconds / 1000) = ms % 1000`. -/
def format_timestamp (milliseconds : Nat) : String :=
  let hours := milliseconds / 3600000
  let minutes := milliseconds % 3600000 / 60000
  let seconds := milliseconds % 60000 / 1000
  let millis := milliseconds % 1000
  padZeros 2 hours ++ ":" ++ padZeros 2 minutes ++ ":" ++ padZeros 2 seconds
    ++ "," ++ padZeros 3 millis

/-- Errors raised by the imaging library during per-frame processing:
Pillow's `ValueError`. -/
inductive PyError where
  | valueError
  deriving Repr, DecidableEq

/-- `resize_image`: `new_height = int(aspect_ratio * new_width * 0.5)` with
`aspect_ratio = height / width`; in exact arithmetic the floor of
`(height / width) * new_width * 0.5` is `height * new_width / (2 * width)`
(Nat floor division).  `image.resize` is Pillow's: when either target
dimension is 0 it raises `ValueError: height and width must be > 0` (every
Pillow release since 2.7), so a degenerate aspect ratio aborts the frame
instead of producing an empty image.  In the successful case the resampling
filter is modelled as nearest-neighbour sampling of the source pixels (no
claim depends on the resampled pixel values, only on the output dimensions
and on pixel values staying in range). -/
def resize_image (image : Img) (new_width : Nat) : Except PyError Img :=
  let new_height := image.height * new_width / (2 * image.width)
  if new_width = 0 ∨ new_height = 0 then Except.error PyError.valueError
  else
    Except.ok
      { width := new_width
        height := new_height
        pixels := (List.range (new_width * new_height)).map (fun k =>
          let r := k / new_width
          let c := k % new_width
          let sr := r * image.height / new_height
          let sc := c * image.width / new_width
          image.pixels.getD (sr * image.width + sc) 0) }

/-- Minimum of a pixel list (the empty case never feeds the scaling branch). -/
def listMin : List Nat → Nat
  | [] => 0
  | x :: xs => xs.foldl min x

/-- Maximum of a pixel list. -/
def listMax : List Nat → Nat
  | [] => 0
  | x :: xs => xs.foldl max x

/-- `cvRound (num / den)`: round to nearest, ties to even — the rounding
OpenCV applies when converting the scaled result back to `uint8`. -/
def cvRound (num den : Nat) : Nat :=
  let q := num / den
  let r := num % den
  if 2 * r < den then q
  else if den < 2 * r then q + 1
  else if q % 2 = 0 then q else q + 1

/-- `normalize_brightness`: `cv2.normalize(img, None, 0, 255, NORM_MINMAX)`.
OpenCV computes `scale = 255 / (max - min)` when `max - min > 0` and uses
`scale = 0` otherwise (so a constant image maps to all zeros, with no
division), then rounds each `(p - min) * scale` to nearest-even. -/
def normalize_brightness (image : Img) : Img :=
  let mn := listMin image.pixels
  let mx := listMax image.pixels
  { image with
    pixels := image.pixels.map (fun p =>
      if mn < mx then cvRound ((p - mn) * 255) (mx - mn) else 0) }

/-- The contrast step of `frame_to_ascii`:
`np.clip(np.array(image) * 1.2, 0, 255).astype('uint8')` — multiply by
`1.2 = 6/5` (exact-rational model of the float multiply), clamp to 255,
truncate to integer. -/
def contrast (p : Nat) : Nat := min (p * 6 / 5) 255

/-- `pixels_to_ascii` index computation:
`int(pixel * (len(ASCII_CHARS) - 1) / 255)`. -/
def pixelIndex (pixel : Nat) : Nat := pixel * (ASCII_CHARS.length - 1) / 255

/-- `pixels_to_ascii`: map every pixel of the (row-major) image to its ramp
character, producing the flat glyph string. -/
def pixels_to_ascii (image : Img) : List Char :=
  image.pixels.map (fun pixel => asciiChars.getD (pixelIndex pixel) ' ')

/-- `for i in range(0, len(s), width): s[i:i+width]` — split a flat string
into consecutive chunks of `width` characters (the last one shorter when the
length is not a multiple).  Python raises on `width = 0`; callers always pass
a positive width, and the model returns `[]` there. -/
def chunkList (width : Nat) (l : List Char) : List (List Char) :=
  if _h : l.length = 0 ∨ width = 0 then []
  else l.take width :: chunkList width (l.drop width)
  termination_by l.length
  decreasing_by
    simp only [List.length_drop]
    omega

/-- The image fed to the glyph mapper by `frame_to_ascii`: grayscale input,
brightness-normalized, contrast-boosted, resized to the target width — or
the `ValueError` that `resize_image` raises on a zero target dimension. -/
def renderedImage (frame : Img) (width : Nat) : Except PyError Img :=
  let image := normalize_brightness frame
  let image := { image with pixels := image.pixels.map contrast }
  resize_image image width

/-- `frame_to_ascii`: the per-frame pipeline; on success the result is the
list of text rows (the Python code joins them with `'\n'`, one terminator
per row); the resize `ValueError` propagates. -/
def frame_to_ascii (frame : Img) (width : Nat) :
    Except PyError (List (List Char)) :=
  Except.map (fun image => chunkList width (pixels_to_ascii image))
    (renderedImage frame width)

/-- Python `int()` applied to a rational: truncation toward zero. -/
def pyInt (q : ℚ) : ℤ := if 0 ≤ q then ⌊q⌋ else ⌈q⌉

/-- `frame_time_ms = int(1000 / fps)` (defined for `fps ≠ 0`;
`process_video` models the `fps = 0` ZeroDivisionError separately). -/
def frame_time_ms (fps : ℚ) : ℤ := pyInt (1000 / fps)

/-- One SRT-like caption block, as written for one frame. -/
structure Block where
  index : Nat
  start_ms : ℤ
  end_ms : ℤ
  body : List (List Char)
  deriving Repr, DecidableEq

/-- The video source handle: whether `cap.isOpened()`, the reported
`CAP_PROP_FPS`, and the frames `cap.read()` yields before returning `ret =
False`. -/
structure Source where
  opened : Bool
  fps : ℚ
  frames : List Img

/-- The output sink: whether `open(output_path, 'w')` succeeds, and an
optional frame index whose write raises mid-run. -/
structure Sink where
  opens : Bool
  failAt : Option Nat

/-- One item as physically written to the sink: either a complete SRT-like
block, or — when `frame_to_ascii` raises after the frame's index line and
timestamp line were already written — a malformed header-only partial
block. -/
inductive OutItem where
  | block (b : Block)
  | header (index : Nat) (start_ms end_ms : ℤ)
  deriving Repr, DecidableEq

/-- The index carried by a written item. -/
def OutItem.idx : OutItem → Nat
  | OutItem.block b => b.index
  | OutItem.header i _ _ => i

/-- The start timestamp carried by a written item. -/
def OutItem.startMs : OutItem → ℤ
  | OutItem.block b => b.start_ms
  | OutItem.header _ s _ => s

/-- The end timestamp carried by a written item. -/
def OutItem.endMs : OutItem → ℤ
  | OutItem.block b => b.end_ms
  | OutItem.header _ _ e => e

/-- Whether the written item is a complete block. -/
def OutItem.isBlock : OutItem → Bool
  | OutItem.block _ => true
  | OutItem.header _ _ _ => false

/-- Failure outcomes of `process_video`; `renderValueError` is the Pillow
`ValueError` from a zero-height resize propagating out of
`frame_to_ascii` mid-loop. -/
inductive PvError where
  | sourceOpenError
  | zeroDivisionError
  | sinkOpenError
  | sinkWriteError
  | renderValueError
  deriving Repr, DecidableEq

/-- Result of a `process_video` run: the items flushed to the sink, the
error it terminated with (if any), and how many times `cap.release()` ran. -/
structure RunResult where
  written : List OutItem
  error : Option PvError
  releases : Nat
  deriving Repr, DecidableEq

/-- The per-frame `while True` loop.  For frame number `i` (0-based) the
code writes the index line `i + 1`, then the timestamp line
`i * d --> (i + 1) * d`, then calls `frame_to_ascii`: if the rendering
raises (zero-height resize) the run aborts with the header-only partial
block already on the sink; otherwise the body and the blank separator
complete the block.  A sink write failure at frame `failAt` aborts at that
frame's first write. -/
def writeLoop (d : ℤ) (width : Nat) (failAt : Option Nat) :
    List Img → Nat → List OutItem × Option PvError
  | [], _ => ([], none)
  | frame :: rest, i =>
      if failAt = some i then ([], some PvError.sinkWriteError)
      else
        match frame_to_ascii frame width with
        | Except.error _ =>
            ([OutItem.header (i + 1) (i * d) ((i + 1) * d)],
             some PvError.renderValueError)
        | Except.ok body =>
            let b : Block := ⟨i + 1, i * d, (i + 1) * d, body⟩
            let (bs, e) := writeLoop d width failAt rest (i + 1)
            (OutItem.block b :: bs, e)

/-- `process_video`, with the source's control flow made explicit:
1. `cap = cv2.VideoCapture(path)`; if not opened, raise `ValueError` —
   before the `try`, so no `cap.release()` runs;
2. `frame_time_ms = int(1000 / fps)` — also before the `try`, so `fps = 0`
   raises `ZeroDivisionError` with no release and no output;
3. `try: with open(output) ... finally: cap.release()` — the sink-open
   failure, every write failure, the mid-loop rendering `ValueError` and
   the normal end all release exactly once. -/
def process_video (src : Source) (sink : Sink) (width : Nat) : RunResult :=
  if ¬ src.opened then ⟨[], some .sourceOpenError, 0⟩
  else if src.fps = 0 then ⟨[], some .zeroDivisionError, 0⟩
  else
    let d := frame_time_ms src.fps
    if ¬ sink.opens then ⟨[], some .sinkOpenError, 1⟩
    else
      let (bs, e) := writeLoop d width sink.failAt src.frames 0
      ⟨bs, e, 1⟩

/-! ## Helper lemmas -/

theorem chunkList_nil (width : Nat) : chunkList width [] = [] := by
  unfold chunkList
  simp

theorem chunkList_cons (width : Nat) (l : List Char) (hw : width ≠ 0)
    (hl : l ≠ []) :
    chunkList width l = l.take width :: chunkList width (l.drop width) := by
  rw [chunkList]
  rw [dif_neg]
  push_neg
  exact ⟨List.length_eq_zero.not.mpr hl, hw⟩

theorem chunkList_exact (width : Nat) (hw : 0 < width) :
    ∀ (n : Nat) (l : List Char), l.length = width * n →
      (∀ r ∈ chunkList width l, r.length = width) ∧
      (chunkList width l).length = n ∧
      (chunkList width l).flatten = l := by
  intro n
  induction n with
  | zero =>
    intro l hl
    have : l = [] := List.length_eq_zero.mp (by omega)
    subst this
    simp [chunkList_nil]
  | succ m ih =>
    intro l hl
    have hlen : width ≤ l.length := by
      rw [hl]; calc width = width * 1 := by ring
        _ ≤ width * (m + 1) := Nat.mul_le_mul_left _ (by omega)
    have hne : l ≠ [] := by
      intro h; subst h; simp at hl; omega
    have hdrop : (l.drop width).length = width * m := by
      simp only [List.length_drop, hl]; ring_nf; omega
    obtain ⟨h1, h2, h3⟩ := ih (l.drop width) hdrop
    rw [chunkList_cons width l (by omega) hne]
    refine ⟨?_, ?_, ?_⟩
    · intro r hr
      rcases List.mem_cons.mp hr with h | h
      · subst h
        simp [List.length_take]
        omega
      · exact h1 r h
    · simp [h2]
    · simp only [List.flatten_cons, h3, List.take_append_drop]

theorem resize_ok_spec (image : Img) (new_width : Nat) (r : Img)
    (h : resize_image image new_width = Except.ok r) :
    r.width = new_width ∧
    r.height = image.height * new_width / (2 * image.width) ∧
    r.pixels.length = new_width * r.height := by
  simp only [resize_image] at h
  by_cases hc : new_width = 0 ∨ image.height * new_width / (2 * image.width) = 0
  · rw [if_pos hc] at h
    simp at h
  · rw [if_neg hc] at h
    injection h with h'
    subst h'
    refine ⟨rfl, rfl, ?_⟩
    simp

theorem resize_ok_of_pos (image : Img) (new_width : Nat)
    (hpos : 0 < image.height * new_width / (2 * image.width)) :
    ∃ r, resize_image image new_width = Except.ok r := by
  unfold resize_image
  rw [if_neg]
  · exact ⟨_, rfl⟩
  · push_neg
    constructor
    · rintro rfl
      simp at hpos
    · omega

theorem renderedImage_ok_spec (frame : Img) (width : Nat) (image : Img)
    (h : renderedImage frame width = Except.ok image) :
    image.width = width ∧
    image.height = frame.height * width / (2 * frame.width) ∧
    image.pixels.length = width * image.height := by
  have h' : resize_image
      { normalize_brightness frame with
        pixels := (normalize_brightness frame).pixels.map contrast } width
      = Except.ok image := h
  have hs := resize_ok_spec
    { normalize_brightness frame with
      pixels := (normalize_brightness frame).pixels.map contrast } width image h'
  exact hs

theorem renderedImage_ok_of_pos (frame : Img) (width : Nat)
    (hpos : 0 < frame.height * width / (2 * frame.width)) :
    ∃ image, renderedImage frame width = Except.ok image :=
  resize_ok_of_pos _ width hpos

theorem frame_to_ascii_ok (frame : Img) (width : Nat)
    (hpos : 0 < frame.height * width / (2 * frame.width)) :
    ∃ image, renderedImage frame width = Except.ok image ∧
      frame_to_ascii frame width
        = Except.ok (chunkList width (pixels_to_ascii image)) := by
  obtain ⟨image, himg⟩ := renderedImage_ok_of_pos frame width hpos
  refine ⟨image, himg, ?_⟩
  unfold frame_to_ascii
  rw [himg]
  rfl

theorem foldl_min_max_const (c : Nat) :
    ∀ (l : List Nat) (x : Nat), (∀ p ∈ l, p = c) → x = c →
      l.foldl min x = c ∧ l.foldl max x = c := by
  intro l
  induction l with
  | nil => intro x _ hx; simpa using hx
  | cons p rest ih =>
    intro x hmem hx
    have hp : p = c := hmem p (List.mem_cons_self _ _)
    have hrest : ∀ q ∈ rest, q = c := fun q hq => hmem q (List.mem_cons_of_mem _ hq)
    simp only [List.foldl_cons]
    exact ⟨(ih (min x p) hrest (by rw [hx, hp, min_self])).1,
           (ih (max x p) hrest (by rw [hx, hp, max_self])).2⟩

theorem writeLoop_render_ok (d : ℤ) (width : Nat) :
    ∀ (frames : List Img),
      (∀ frame ∈ frames, ∃ body, frame_to_ascii frame width = Except.ok body) →
      ∀ (i : Nat),
        (writeLoop d width none frames i).2 = none ∧
        (writeLoop d width none frames i).1.length = frames.length ∧
        ∀ k, k < frames.length →
          ((writeLoop d width none frames i).1.getD k
              (OutItem.header 0 0 0)).isBlock = true ∧
          ((writeLoop d width none frames i).1.getD k
              (OutItem.header 0 0 0)).idx = i + k + 1 ∧
          ((writeLoop d width none frames i).1.getD k
              (OutItem.header 0 0 0)).startMs = ((i + k : ℕ) : ℤ) * d ∧
          ((writeLoop d width none frames i).1.getD k
              (OutItem.header 0 0 0)).endMs = (((i + k : ℕ) : ℤ) + 1) * d := by
  intro frames
  induction frames with
  | nil =>
    intro _ i
    exact ⟨rfl, rfl, fun k hk => absurd hk (by simp)⟩
  | cons f rest ih =>
    intro hall i
    obtain ⟨body, hbody⟩ := hall f (List.mem_cons_self _ _)
    have hrest : ∀ fr ∈ rest, ∃ b, frame_to_ascii fr width = Except.ok b :=
      fun fr hfr => hall fr (List.mem_cons_of_mem _ hfr)
    obtain ⟨ih1, ih2, ih3⟩ := ih hrest (i + 1)
    have hstep : writeLoop d width none (f :: rest) i
        = (OutItem.block ⟨i + 1, i * d, (i + 1) * d, body⟩
            :: (writeLoop d width none rest (i + 1)).1,
           (writeLoop d width none rest (i + 1)).2) := by
      rcases hw2 : writeLoop d width none rest (i + 1) with ⟨bs, e⟩
      simp [writeLoop, hbody, hw2]
    rw [hstep]
    refine ⟨ih1, ?_, ?_⟩
    · show (OutItem.block ⟨i + 1, i * d, (i + 1) * d, body⟩
          :: (writeLoop d width none rest (i + 1)).1).length = (f :: rest).length
      simp only [List.length_cons, ih2]
    · intro k hk
      cases k with
      | zero =>
        exact ⟨rfl, rfl, rfl, rfl⟩
      | succ n =>
        have hn : n < rest.length := by
          simp only [List.length_cons] at hk
          omega
        have h3 := ih3 n hn
        refine ⟨h3.1, ?_, ?_, ?_⟩
        · have h := h3.2.1
          show ((writeLoop d width none rest (i + 1)).1.getD n
              (OutItem.header 0 0 0)).idx = i + (n + 1) + 1
          omega
        · have h := h3.2.2.1
          show ((writeLoop d width none rest (i + 1)).1.getD n
              (OutItem.header 0 0 0)).startMs = ((i + (n + 1) : ℕ) : ℤ) * d
          rw [h]
          push_cast
          ring
        · have h := h3.2.2.2
          show ((writeLoop d width none rest (i + 1)).1.getD n
              (OutItem.header 0 0 0)).endMs = (((i + (n + 1) : ℕ) : ℤ) + 1) * d
          rw [h]
          push_cast
          ring

/-! ## Claims -/

/-- C1: for every pixel intensity `p ∈ [0, 255]` the Glyph Mapper selects
ramp index `⌊p * (L - 1) / 255⌋` with `L = 13` the ramp length; the index is
always in `[0, L-1]`, `p = 0` maps to index `0`, `p = 255` maps to `L - 1`,
and every character of the output string is drawn from the ramp. -/
theorem C1_glyph_ramp_coverage :
    ASCII_CHARS.length = 13 ∧
    (∀ p : Nat, p ≤ 255 → pixelIndex p ≤ ASCII_CHARS.length - 1) ∧
    pixelIndex 0 = 0 ∧
    pixelIndex 255 = ASCII_CHARS.length - 1 ∧
    (∀ image : Img, (∀ p ∈ image.pixels, p ≤ 255) →
      ∀ c ∈ pixels_to_ascii image, c ∈ asciiChars) := by
  have hidx : ∀ p : Nat, pixelIndex p = p * 12 / 255 := fun p => rfl
  have hbound : ∀ p : Nat, p ≤ 255 → pixelIndex p ≤ 12 := by
    intro p hp
    rw [hidx]
    omega
  refine ⟨rfl, ?_, rfl, rfl, ?_⟩
  · intro p hp
    exact hbound p hp
  · intro image himg c hc
    simp only [pixels_to_ascii, List.mem_map] at hc
    obtain ⟨p, hp, rfl⟩ := hc
    have hlt : pixelIndex p < asciiChars.length := by
      have h13 : asciiChars.length = 13 := rfl
      have := hbound p (himg p hp)
      omega
    rw [List.getD_eq_getElem _ _ hlt]
    exact List.getElem_mem hlt

/-- Witness for C1 at `p = 200` and a concrete one-pixel image. -/
theorem C1_glyph_ramp_coverage_witness :
    (200 : Nat) ≤ 255 ∧ pixelIndex 200 ≤ ASCII_CHARS.length - 1 ∧
    (∀ p ∈ (Img.mk 1 1 [200]).pixels, p ≤ 255) ∧
    (∀ c ∈ pixels_to_ascii (Img.mk 1 1 [200]), c ∈ asciiChars) :=
  ⟨by decide, C1_glyph_ramp_coverage.2.1 200 (by decide), by decide,
   C1_glyph_ramp_coverage.2.2.2.2 (Img.mk 1 1 [200]) (by decide)⟩

/-- C4: `format_timestamp` renders any nonnegative millisecond count `m` as
`HH:MM:SS,mmm` — zero-padded 2-digit hours/minutes/seconds and 3-digit
milliseconds, the components reconstructing `m` exactly with minutes,
seconds and milliseconds in range and hours unbounded (no wraparound at
24); in particular the three values named by the spec render as stated. -/
theorem C4_format_timestamp_spec :
    (∀ m : Nat, ∃ hh mm ss ms,
        mm < 60 ∧ ss < 60 ∧ ms < 1000 ∧
        hh * 3600000 + mm * 60000 + ss * 1000 + ms = m ∧
        format_timestamp m =
          padZeros 2 hh ++ ":" ++ padZeros 2 mm ++ ":" ++ padZeros 2 ss
            ++ "," ++ padZeros 3 ms) ∧
    format_timestamp 0 = "00:00:00,000" ∧
    format_timestamp 1234 = "00:00:01,234" ∧
    format_timestamp 3661001 = "01:01:01,001" ∧
    format_timestamp (25 * 3600000) = "25:00:00,000" := by
  refine ⟨?_, rfl, rfl, rfl, rfl⟩
  intro m
  exact ⟨m / 3600000, m % 3600000 / 60000, m % 60000 / 1000, m % 1000,
    by omega, by omega, by omega, by omega, rfl⟩

/-- Witness for C4: the decomposition applied at a concrete input. -/
theorem C4_format_timestamp_spec_witness :
    ∃ hh mm ss ms,
      mm < 60 ∧ ss < 60 ∧ ms < 1000 ∧
      hh * 3600000 + mm * 60000 + ss * 1000 + ms = 45296789 ∧
      format_timestamp 45296789 =
        padZeros 2 hh ++ ":" ++ padZeros 2 mm ++ ":" ++ padZeros 2 ss
          ++ "," ++ padZeros 3 ms :=
  C4_format_timestamp_spec.1 45296789

/-- C5 counterexample: at the degenerate geometry `Wsrc = 100`, `Hsrc = 1`,
`Wtarget = 10` the computed target height is 0 and Pillow's resize raises
`ValueError` instead of producing a `(10, 0)` image, so the claim's
universal statement over every `Wsrc > 0`, `Hsrc`, positive `Wtarget`
fails. -/
theorem C5_resampler_dims_counterexample :
    0 < (Img.mk 100 1 (List.replicate 100 5)).width ∧
    resize_image (Img.mk 100 1 (List.replicate 100 5)) 10
      = Except.error PyError.valueError :=
  ⟨by decide, rfl⟩

/-- C5 (amended): for a source of positive width and any target width whose
computed target height `⌊(Hsrc / Wsrc) * Wtarget * 0.5⌋` is at least 1, the
Resampler succeeds and its output has dimensions `(Wtarget, ⌊...⌋)`; a zero
computed height instead raises Pillow's `ValueError`. -/
theorem C5_resampler_dims (image : Img) (new_width : Nat)
    (hW : 0 < image.width)
    (hpos : 0 < image.height * new_width / (2 * image.width)) :
    ∃ resized, resize_image image new_width = Except.ok resized ∧
      resized.width = new_width ∧
      resized.height =
        Nat.floor ((image.height : ℚ) / (image.width : ℚ) * (new_width : ℚ)
          * (1 / 2 : ℚ)) := by
  obtain ⟨r, hr⟩ := resize_ok_of_pos image new_width hpos
  obtain ⟨h1, h2, _⟩ := resize_ok_spec image new_width r hr
  refine ⟨r, hr, h1, ?_⟩
  rw [h2]
  have hW0 : (image.width : ℚ) ≠ 0 := Nat.cast_ne_zero.mpr (by omega)
  have hcast : (image.height : ℚ) / (image.width : ℚ) * (new_width : ℚ)
        * (1 / 2 : ℚ)
      = ((image.height * new_width : ℕ) : ℚ) / ((2 * image.width : ℕ) : ℚ) := by
    push_cast
    field_simp
    ring_nf
    simp
  rw [hcast, Nat.floor_div_nat, Nat.floor_natCast]

/-- Witness for C5: 200×100 source resized to width 100 has height 25. -/
theorem C5_resampler_dims_witness :
    0 < (Img.mk 200 100 []).width ∧
    0 < (Img.mk 200 100 []).height * 100 / (2 * (Img.mk 200 100 []).width) ∧
    ∃ resized, resize_image (Img.mk 200 100 []) 100 = Except.ok resized ∧
      resized.width = 100 ∧ resized.height = 25 := by
  refine ⟨by decide, by decide, ?_⟩
  obtain ⟨r, h1, h2, h3⟩ :=
    C5_resampler_dims (Img.mk 200 100 []) 100 (by decide) (by decide)
  refine ⟨r, h1, h2, ?_⟩
  rw [h3]
  norm_num

/-- C6: for every frame and positive target width whose resample is
non-degenerate (computed target height at least 1), the renderer succeeds
and the flat glyph string of length `W * height` is split into rows of
exactly `W` characters each: every row of the AsciiFrame has exactly `W`
characters, there are `height` rows, and they concatenate back to the flat
glyph string. -/
theorem C6_row_width (frame : Img) (width : Nat) (hw : 0 < width)
    (hpos : 0 < frame.height * width / (2 * frame.width)) :
    ∃ image rows,
      renderedImage frame width = Except.ok image ∧
      frame_to_ascii frame width = Except.ok rows ∧
      (∀ row ∈ rows, row.length = width) ∧
      rows.length = image.height ∧
      rows.flatten = pixels_to_ascii image := by
  obtain ⟨image, himg, hfta⟩ := frame_to_ascii_ok frame width hpos
  have hlen : (pixels_to_ascii image).length = width * image.height := by
    simp only [pixels_to_ascii, List.length_map]
    exact (renderedImage_ok_spec frame width image himg).2.2
  obtain ⟨h1, h2, h3⟩ := chunkList_exact width hw image.height
    (pixels_to_ascii image) hlen
  exact ⟨image, chunkList width (pixels_to_ascii image), himg, hfta,
    h1, h2, h3⟩

/-- Witness for C6 on a concrete 4×4 frame at width 4. -/
theorem C6_row_width_witness :
    0 < 4 ∧
    0 < (Img.mk 4 4 [0, 255, 10, 200, 30, 40, 50, 60,
        70, 80, 90, 100, 110, 120, 130, 140]).height * 4
      / (2 * (Img.mk 4 4 [0, 255, 10, 200, 30, 40, 50, 60,
          70, 80, 90, 100, 110, 120, 130, 140]).width) ∧
    ∃ image rows,
      renderedImage (Img.mk 4 4 [0, 255, 10, 200, 30, 40, 50, 60,
        70, 80, 90, 100, 110, 120, 130, 140]) 4 = Except.ok image ∧
      frame_to_ascii (Img.mk 4 4 [0, 255, 10, 200, 30, 40, 50, 60,
        70, 80, 90, 100, 110, 120, 130, 140]) 4 = Except.ok rows ∧
      (∀ row ∈ rows, row.length = 4) ∧
      rows.length = image.height ∧
      rows.flatten = pixels_to_ascii image :=
  ⟨by decide, by decide,
   C6_row_width (Img.mk 4 4 [0, 255, 10, 200, 30, 40, 50, 60,
     70, 80, 90, 100, 110, 120, 130, 140]) 4 (by decide) (by decide)⟩

/-- C7 (code bug): at a frame whose computed target height is 0 the claim —
and the spec's §4.2 edge case and §7 taxonomy — require a valid empty-body
AsciiFrame with no error, but the code's `image.resize((width, 0))` raises
Pillow's `ValueError: height and width must be > 0`, so the pipeline errors
on this input instead of producing a degenerate frame: here the concrete
100×1 frame at target width 10 (computed height `1 * 10 / 200 = 0`). -/
theorem C7_degenerate_raises :
    (Img.mk 100 1 (List.replicate 100 5)).height * 10
        / (2 * (Img.mk 100 1 (List.replicate 100 5)).width) = 0 ∧
    frame_to_ascii (Img.mk 100 1 (List.replicate 100 5)) 10
      = Except.error PyError.valueError :=
  ⟨by decide, rfl⟩

/-- C8: on an image whose pixels all share one intensity, the Luminance
Normalizer takes the no-division branch (scale 0): the output has the same
dimensions and every output pixel is 0. -/
theorem C8_normalize_constant (image : Img) (c : Nat)
    (hc : ∀ p ∈ image.pixels, p = c) :
    (normalize_brightness image).width = image.width ∧
    (normalize_brightness image).height = image.height ∧
    ∀ p ∈ (normalize_brightness image).pixels, p = 0 := by
  refine ⟨rfl, rfl, ?_⟩
  intro p hp
  simp only [normalize_brightness, List.mem_map] at hp
  obtain ⟨q, hq, rfl⟩ := hp
  cases himg : image.pixels with
  | nil => rw [himg] at hq; cases hq
  | cons a rest =>
    have hmem : ∀ x ∈ a :: rest, x = c := by rw [← himg]; exact hc
    have ha : a = c := hmem a (List.mem_cons_self _ _)
    have hrest : ∀ x ∈ rest, x = c := fun x hx => hmem x (List.mem_cons_of_mem _ hx)
    have hminmax := foldl_min_max_const c rest a hrest ha
    rw [show listMin (a :: rest) = c from hminmax.1,
        show listMax (a :: rest) = c from hminmax.2,
        if_neg (lt_irrefl c)]

/-- Witness for C8 on a constant 2×2 image of intensity 7. -/
theorem C8_normalize_constant_witness :
    (∀ p ∈ (Img.mk 2 2 [7, 7, 7, 7]).pixels, p = 7) ∧
    (normalize_brightness (Img.mk 2 2 [7, 7, 7, 7])).width = 2 ∧
    (∀ p ∈ (normalize_brightness (Img.mk 2 2 [7, 7, 7, 7])).pixels, p = 0) :=
  ⟨by decide, (C8_normalize_constant (Img.mk 2 2 [7, 7, 7, 7]) 7 (by decide)).1,
   (C8_normalize_constant (Img.mk 2 2 [7, 7, 7, 7]) 7 (by decide)).2.2⟩

/-- C2 counterexample: a run past the open/fps/sink checks over one
degenerate-geometry frame (100×1 at width 10, fps 10) does not emit blocks
`1..n`: the loop writes frame 1's index line and timestamp line, then
`frame_to_ascii` raises Pillow's `ValueError`, leaving one malformed
header-only partial block and aborting the run. -/
theorem C2_caption_stream_counterexample :
    process_video (Source.mk true 10 [Img.mk 100 1 (List.replicate 100 5)])
        (Sink.mk true none) 10
      = ⟨[OutItem.header 1 0 100], some PvError.renderValueError, 1⟩ := by
  have hd : frame_time_ms 10 = 100 := by
    unfold frame_time_ms pyInt
    rw [if_pos (by norm_num)]
    norm_num
  have hloop : writeLoop 100 10 none [Img.mk 100 1 (List.replicate 100 5)] 0
      = ([OutItem.header 1 0 100], some PvError.renderValueError) := rfl
  unfold process_video
  rw [if_neg (by decide :
        ¬ ¬ (Source.mk true 10 [Img.mk 100 1 (List.replicate 100 5)]).opened
          = true),
      if_neg (by decide :
        ¬ (Source.mk true 10 [Img.mk 100 1 (List.replicate 100 5)]).fps = 0)]
  simp only [hd, hloop]
  rfl

/-- C2 (amended): a run whose source opens, whose fps is nonzero, whose sink
never fails and whose every frame has positive computed target height (so
each frame renders) emits caption blocks with indices exactly `1, …, n`,
block `k` (0-based) spanning `[k*d, (k+1)*d]` for the fixed duration `d`,
consecutive blocks contiguous; a degenerate-geometry frame instead aborts
the run mid-block with the rendering `ValueError`. -/
theorem C2_caption_stream (src : Source) (sink : Sink) (width : Nat)
    (hopen : src.opened = true) (hfps : src.fps ≠ 0)
    (hsink : sink.opens = true) (hnofail : sink.failAt = none)
    (hgeom : ∀ frame ∈ src.frames,
      0 < frame.height * width / (2 * frame.width)) :
    (process_video src sink width).error = none ∧
    (process_video src sink width).written.length = src.frames.length ∧
    (∀ k, k < src.frames.length →
      ((process_video src sink width).written.getD k
          (OutItem.header 0 0 0)).isBlock = true ∧
      ((process_video src sink width).written.getD k
          (OutItem.header 0 0 0)).idx = k + 1 ∧
      ((process_video src sink width).written.getD k
          (OutItem.header 0 0 0)).startMs = (k : ℤ) * frame_time_ms src.fps ∧
      ((process_video src sink width).written.getD k
          (OutItem.header 0 0 0)).endMs
        = ((k : ℤ) + 1) * frame_time_ms src.fps) ∧
    (∀ k, k + 1 < src.frames.length →
      ((process_video src sink width).written.getD k
          (OutItem.header 0 0 0)).endMs
        = ((process_video src sink width).written.getD (k + 1)
            (OutItem.header 0 0 0)).startMs) := by
  have hok : ∀ frame ∈ src.frames, ∃ body,
      frame_to_ascii frame width = Except.ok body := by
    intro f hf
    obtain ⟨image, _, hfta⟩ := frame_to_ascii_ok f width (hgeom f hf)
    exact ⟨_, hfta⟩
  obtain ⟨hl1, hl2, hl3⟩ := writeLoop_render_ok (frame_time_ms src.fps) width
    src.frames hok 0
  have hpv : process_video src sink width
      = ⟨(writeLoop (frame_time_ms src.fps) width none src.frames 0).1,
         (writeLoop (frame_time_ms src.fps) width none src.frames 0).2, 1⟩ := by
    rcases hww : writeLoop (frame_time_ms src.fps) width none src.frames 0
      with ⟨bs, e⟩
    simp [process_video, hopen, hfps, hsink, hnofail, hww]
  rw [hpv]
  refine ⟨hl1, hl2, ?_, ?_⟩
  · intro k hk
    have h3 := hl3 k hk
    refine ⟨h3.1, ?_, ?_, ?_⟩
    · have h := h3.2.1
      show ((writeLoop (frame_time_ms src.fps) width none src.frames 0).1.getD k
          (OutItem.header 0 0 0)).idx = k + 1
      omega
    · have h := h3.2.2.1
      show ((writeLoop (frame_time_ms src.fps) width none src.frames 0).1.getD k
          (OutItem.header 0 0 0)).startMs = (k : ℤ) * frame_time_ms src.fps
      rw [h]
      push_cast
      ring
    · have h := h3.2.2.2
      show ((writeLoop (frame_time_ms src.fps) width none src.frames 0).1.getD k
          (OutItem.header 0 0 0)).endMs = ((k : ℤ) + 1) * frame_time_ms src.fps
      rw [h]
      push_cast
      ring
  · intro k hk
    have ha := (hl3 k (by omega)).2.2.2
    have hb := (hl3 (k + 1) hk).2.2.1
    show ((writeLoop (frame_time_ms src.fps) width none src.frames 0).1.getD k
        (OutItem.header 0 0 0)).endMs
      = ((writeLoop (frame_time_ms src.fps) width none src.frames 0).1.getD
          (k + 1) (OutItem.header 0 0 0)).startMs
    rw [ha, hb]
    push_cast
    ring

/-- Witness for C2: a 2-frame source at 10 fps produces two contiguous
blocks. -/
theorem C2_caption_stream_witness :
    (Source.mk true 10 [Img.mk 1 1 [0], Img.mk 1 1 [0]]).fps ≠ 0 ∧
    (∀ frame ∈ (Source.mk true 10 [Img.mk 1 1 [0], Img.mk 1 1 [0]]).frames,
      0 < frame.height * 4 / (2 * frame.width)) ∧
    (process_video (Source.mk true 10 [Img.mk 1 1 [0], Img.mk 1 1 [0]])
        (Sink.mk true none) 4).written.length = 2 ∧
    ((process_video (Source.mk true 10 [Img.mk 1 1 [0], Img.mk 1 1 [0]])
        (Sink.mk true none) 4).written.getD 0 (OutItem.header 0 0 0)).endMs
      = ((process_video (Source.mk true 10 [Img.mk 1 1 [0], Img.mk 1 1 [0]])
          (Sink.mk true none) 4).written.getD 1 (OutItem.header 0 0 0)).startMs := by
  refine ⟨by decide, by decide, ?_, ?_⟩
  · exact (C2_caption_stream (Source.mk true 10 [Img.mk 1 1 [0], Img.mk 1 1 [0]])
      (Sink.mk true none) 4 rfl (by decide) rfl rfl (by decide)).2.1
  · exact (C2_caption_stream (Source.mk true 10 [Img.mk 1 1 [0], Img.mk 1 1 [0]])
      (Sink.mk true none) 4 rfl (by decide) rfl rfl (by decide)).2.2.2 0 (by decide)

/-- C3 counterexample: at fps 6 the code's duration is the truncation 166,
while rounding `1000 / 6` gives 167 — the claim's `round` is wrong. -/
theorem C3_duration_counterexample :
    frame_time_ms 6 = 166 ∧ round ((1000 : ℚ) / 6) = 167 ∧
    frame_time_ms 6 ≠ round ((1000 : ℚ) / 6) := by
  have h1 : frame_time_ms 6 = 166 := by
    unfold frame_time_ms pyInt
    rw [if_pos (by norm_num)]
    norm_num
  have h2 : round ((1000 : ℚ) / 6) = 167 := by
    rw [round_eq]
    norm_num
  exact ⟨h1, h2, by rw [h1, h2]; decide⟩

/-- C3 (amended): for every positive fps, the fixed per-frame duration in
milliseconds equals the truncation (floor, the value being positive) of
`1000 / fps`, not its rounding. -/
theorem C3_frame_duration_floor (fps : ℚ) (hfps : 0 < fps) :
    frame_time_ms fps = ⌊(1000 : ℚ) / fps⌋ := by
  unfold frame_time_ms pyInt
  rw [if_pos (div_nonneg (by norm_num) hfps.le)]

/-- Witness for the amended C3 at fps 6. -/
theorem C3_frame_duration_floor_witness :
    (0 : ℚ) < 6 ∧ frame_time_ms 6 = ⌊(1000 : ℚ) / 6⌋ :=
  ⟨by norm_num, C3_frame_duration_floor 6 (by norm_num)⟩

/-- C9 counterexample: on the source-open-failure exit path the driver
raises before the `try`/`finally`, so `cap.release()` runs zero times, not
once. -/
theorem C9_release_counterexample :
    (process_video (Source.mk false 30 []) (Sink.mk true none) 100).error
        = some PvError.sourceOpenError ∧
    (process_video (Source.mk false 30 []) (Sink.mk true none) 100).releases
        = 0 := by
  decide

/-- C9 (amended): on every exit path that gets past the open check and the
duration computation — normal end of iteration, sink-open failure,
sink-write failure mid-run — the source handle is released exactly once;
on source-open failure (and on the fps-0 failure) it is not released. -/
theorem C9_release_exactly_once (src : Source) (sink : Sink) (width : Nat)
    (hopen : src.opened = true) (hfps : src.fps ≠ 0) :
    (process_video src sink width).releases = 1 := by
  rcases hwl : writeLoop (frame_time_ms src.fps) width sink.failAt src.frames 0
    with ⟨bs, e⟩
  by_cases hs : sink.opens
  · simp [process_video, hopen, hfps, hs, hwl]
  · simp [process_video, hopen, hfps, hs]

/-- Witness for the amended C9: a run whose sink fails to open still
releases the source exactly once. -/
theorem C9_release_exactly_once_witness :
    (Source.mk true 30 []).opened = true ∧ (Source.mk true 30 []).fps ≠ 0 ∧
    (process_video (Source.mk true 30 []) (Sink.mk false none) 100).releases
        = 1 :=
  ⟨rfl, by decide, C9_release_exactly_once (Source.mk true 30 [])
    (Sink.mk false none) 100 rfl (by decide)⟩

/-- C10: a source that opens but reports fps 0 makes `process_video` fail
with the division-by-zero error while computing the per-frame duration:
nothing is written to (or even opened on) the sink and the handle is not
released. -/
theorem C10_zero_fps_division_error (src : Source) (sink : Sink) (width : Nat)
    (hopen : src.opened = true) (hfps : src.fps = 0) :
    process_video src sink width
      = ⟨[], some PvError.zeroDivisionError, 0⟩ := by
  simp [process_video, hopen, hfps]

/-- Witness for C10 at a concrete opened zero-fps source. -/
theorem C10_zero_fps_division_error_witness :
    (Source.mk true 0 [Img.mk 1 1 [5]]).fps = 0 ∧
    process_video (Source.mk true 0 [Img.mk 1 1 [5]]) (Sink.mk true none) 100
      = ⟨[], some PvError.zeroDivisionError, 0⟩ :=
  ⟨rfl, C10_zero_fps_division_error (Source.mk true 0 [Img.mk 1 1 [5]])
    (Sink.mk true none) 100 rfl rfl⟩

end Converter
